import Mathlib

/-!
Verification of the dependency-index core of pytest-testmon
(src/testmon/testmon_core.py) against its natural-language specification.

Python dictionaries are embedded as association lists of key/value pairs
(insertion ordered, keys unique in every state a Python program can build).
The operations below mirror the dictionary operations the source uses:
lookup (d.get / d[k]), insert (d[k] = v, replacing in place or appending),
erase (del d[k], which raises KeyError on a missing key), and update
(d.update(other)).
-/

namespace PyDict

/-- Python d.get(k): the value of the first entry whose key is k. -/
def lookup {α : Type} : List (String × α) → String → Option α
  | [], _ => none
  | (k', v) :: rest, k => if k' = k then some v else lookup rest k

/-- Python d[k] = v: replace the value of the existing entry for k in place,
or append a fresh entry at the end (dictionaries preserve insertion order). -/
def insert {α : Type} : List (String × α) → String → α → List (String × α)
  | [], k, v => [(k, v)]
  | (k', v') :: rest, k, v =>
    if k' = k then (k, v) :: rest else (k', v') :: insert rest k v

/-- Removal of every entry with key k; on a Python dictionary (unique keys)
this is exactly what del d[k] removes. -/
def erase {α : Type} (d : List (String × α)) (k : String) : List (String × α) :=
  d.filter (fun e => e.1 ≠ k)

/-- Python del d[k]: KeyError (modelled as none) when k is absent. -/
def delete {α : Type} (d : List (String × α)) (k : String) :
    Option (List (String × α)) :=
  if (lookup d k).isSome then some (erase d k) else none

/-- Python d.update(other): assign each entry of other into d, in order. -/
def update {α : Type} (d other : List (String × α)) : List (String × α) :=
  other.foldl (fun d e => insert d e.1 e.2) d

/-- Python list(d): the keys in insertion order. -/
def keys {α : Type} (d : List (String × α)) : List String :=
  d.map (fun e => e.1)

end PyDict

/-!
Dependency index store (component 4.C).

The store is the sqlite table alldata (dataid TEXT PRIMARY KEY, data BLOB)
of the .testmondata file; a row's dataid is variant + ":" + attribute and
its data is zlib.compress(json.dumps(value).encode('utf-8')).  Both
json.dumps/json.loads and zlib.compress/zlib.decompress are inverse pairs
on JSON-representable values, so the blob is embedded as the JSON value it
serializes: JVal mirrors the JSON object tree json.dumps can produce.
-/

/-- JSON value trees, as produced by json.dumps / consumed by json.loads. -/
inductive JVal : Type where
  | jnull : JVal
  | jbool : Bool → JVal
  | jnum : Int → JVal
  | jstr : String → JVal
  | jarr : List JVal → JVal
  | jobj : List (String × JVal) → JVal

/-- One row map of the alldata table: dataid to stored (decoded) payload. -/
abbrev StoreDb := List (String × JVal)

/-- The four persistent attributes of TestmonData, as held in memory. -/
structure InMemData where
  mtimes : List (String × JVal)
  node_data : List (String × JVal)
  reports : List (String × JVal)
  lastfailed : List JVal

/-- TestmonData._fetch_attribute: SELECT data FROM alldata WHERE dataid =
variant + ":" + attribute, decoded; the default when no row exists. -/
def fetch_attribute (db : StoreDb) (variant attr : String) (default : JVal) :
    JVal :=
  match PyDict.lookup db (variant ++ ":" ++ attr) with
  | some v => v
  | none => default

/-- TestmonData._write_attribute: UPDATE the row for variant + ":" + attribute,
INSERT it when no row was updated. -/
def write_attribute (db : StoreDb) (variant attr : String) (data : JVal) :
    StoreDb :=
  PyDict.insert db (variant ++ ":" ++ attr) data

/-- TestmonData.write_data: merge the staged changed_mtimes / changed_node_data /
changed_reports into the in-memory attributes (dict.update) and rewrite all
four attribute rows.  Returns the post-flush in-memory state and the store. -/
def write_data (db : StoreDb) (variant : String) (mem : InMemData)
    (changed_mtimes changed_node_data changed_reports : List (String × JVal)) :
    InMemData × StoreDb :=
  let mtimes' := PyDict.update mem.mtimes changed_mtimes
  let node_data' := PyDict.update mem.node_data changed_node_data
  let reports' := PyDict.update mem.reports changed_reports
  let db := write_attribute db variant "mtimes" (JVal.jobj mtimes')
  let db := write_attribute db variant "node_data" (JVal.jobj node_data')
  let db := write_attribute db variant "lastfailed" (JVal.jarr mem.lastfailed)
  let db := write_attribute db variant "reports" (JVal.jobj reports')
  (⟨mtimes', node_data', reports', mem.lastfailed⟩, db)

/-- TestmonData.read_data: fetch the four attributes, with empty defaults
(empty dict for mtimes, node_data and reports, empty list for lastfailed). -/
def read_data (db : StoreDb) (variant : String) : JVal × JVal × JVal × JVal :=
  (fetch_attribute db variant "mtimes" (JVal.jobj []),
   fetch_attribute db variant "node_data" (JVal.jobj []),
   fetch_attribute db variant "reports" (JVal.jobj []),
   fetch_attribute db variant "lastfailed" (JVal.jarr []))

/-!
Source-region model and analyzer state.

Module and checksum_coverage live in testmon/process_code.py, which is not
part of the sources under review; they are modelled from the specification
(4.A and 4.B).  The file system is an input of the model: a path maps to
the file's modification time and the blocks the block parser produces for
its current content, or to nothing when the path is missing on disk (where
os.path.getmtime and open raise OSError).
-/

namespace Testmon

/-- Modelled from the spec: a block of process_code (missing from src/), a
contiguous chunk of a source file with start line, end line (inclusive) and
a stable content checksum (4.A). -/
structure Block where
  start : Nat
  stop : Nat
  checksum : Int
deriving DecidableEq

/-- Modelled from the spec: process_code.Module (missing from src/), the
parsed form of one source file, an ordered sequence of blocks. -/
structure Module where
  blocks : List Block
deriving DecidableEq

/-- Module.checksums: the block checksums of the parsed file, in order. -/
def Module.checksums (m : Module) : List Int :=
  m.blocks.map (fun b => b.checksum)

/-- Modelled from the spec: process_code.checksum_coverage (missing from
src/), the coverage folder (4.B): the checksums of the blocks whose line
range intersects the executed lines. -/
def checksum_coverage (blocks : List Block) (lines : List Nat) : List Int :=
  (blocks.filter
      (fun b => lines.any (fun l => decide (b.start ≤ l ∧ l ≤ b.stop)))).map
    (fun b => b.checksum)

/-- One file on disk: its modification time and its parsed blocks. -/
structure FsFile where
  mtime : Int
  blocks : List Block
deriving DecidableEq

/-- The file system the run observes; none is a missing path. -/
def Fs : Type := String → Option FsFile

/-- A test's dependency record: file path to recorded block checksums. -/
abbrev Deps := List (String × List Int)

/-- The index snapshot node_data: nodeid to dependency record. -/
abbrev NodeData := List (String × Deps)

/-- The flipped index: file path to (nodeid to recorded checksums). -/
abbrev FileData := List (String × Deps)

/-- A value of the mtimes dictionary: a recorded modification time, or the
[-2] list sentinel read_fs stores for a file missing on disk. -/
inductive MVal : Type where
  | mt : Int → MVal
  | missingSentinel : MVal
deriving DecidableEq

/-- The mutable attributes of a TestmonData object that the analyzer
pipeline reads and writes.  In read_fs, read_data has already populated
mtimes, node_data and lastfailed; the changed_* dictionaries are the
staging layer (empty on a freshly constructed object). -/
structure TDState where
  mtimes : List (String × MVal)
  node_data : NodeData
  lastfailed : List String
  changed_files : List (String × Module)
  changed_mtimes : List (String × MVal)
  changed_node_data : NodeData
deriving DecidableEq

/-- TestmonData.parse_file: parse and cache a file not yet in changed_files,
recording its mtime (the given one, or os.path.getmtime when absent, which
raises OSError - the error value - on a missing file). -/
def parse_file (st : TDState) (fs : Fs) (file : String) (new_mtime : Option Int) :
    Except String (Module × TDState) :=
  match PyDict.lookup st.changed_files file with
  | some m => .ok (m, st)
  | none =>
    match fs file with
    | none => .error "OSError"
    | some f =>
      let m : Module := ⟨f.blocks⟩
      let t : Int :=
        match new_mtime with
        | some t => t
        | none => f.mtime
      .ok (m, { st with
        changed_files := PyDict.insert st.changed_files file m,
        changed_mtimes := PyDict.insert st.changed_mtimes file (MVal.mt t) })

/-- Coverage data of one tracked run: the measured files and the executed
lines the tracer reports for each of them. -/
structure CovData where
  measured_files : List String
  lines : String → List Nat

/-- Python os.path.join for the two POSIX path segments the source joins. -/
def os_path_join (a b : String) : String :=
  if b.data.head? = some '/' then b
  else if a.data = [] ∨ a.data.getLast? = some '/' then a ++ b
  else a ++ "/" ++ b

/-- Python s.split("::", 1)[0] on the character list: the prefix up to the
first "::" occurrence, or all of s when none occurs. -/
def split_double_colon_head : List Char → List Char
  | [] => []
  | ':' :: ':' :: _ => []
  | c :: rest => c :: split_double_colon_head rest

/-- The fallback filename of set_dependencies: os.path.join(rootdir,
nodeid).split("::", 1)[0], the path part of the nodeid joined to rootdir. -/
def test_source_file (rootdir nodeid : String) : String :=
  ⟨split_double_colon_head (os_path_join rootdir nodeid).data⟩

/-- One iteration of the loop of set_dependencies over the measured files:
a file that exists on disk is parsed and its folded checksums assigned into
the record; a missing one is skipped. -/
def set_dependencies_step (fs : Fs) (cov : CovData) (acc : Deps × TDState)
    (filename : String) : Except String (Deps × TDState) :=
  let lines := cov.lines filename
  if (fs filename).isSome then
    match parse_file acc.2 fs filename none with
    | .error e => .error e
    | .ok (m, st') =>
      .ok (PyDict.insert acc.1 filename (checksum_coverage m.blocks lines), st')
  else
    .ok acc

/-- TestmonData.set_dependencies: assemble the dependency record of nodeid
from the measured files that exist on disk; when the record comes out
empty, stage the synthetic entry for the test's own source file (the
os.path.join of rootdir and nodeid, cut at the first "::") holding the
checksums of the blocks covering line 1. -/
def set_dependencies (st : TDState) (fs : Fs) (nodeid : String) (cov : CovData)
    (rootdir : String) : Except String TDState :=
  match cov.measured_files.foldlM (set_dependencies_step fs cov) (([] : Deps), st) with
  | .error e => .error e
  | .ok (result, st) =>
    if result.isEmpty then
      let filename : String := test_source_file rootdir nodeid
      match parse_file st fs filename none with
      | .error e => .error e
      | .ok (m, st') =>
        let record := PyDict.insert ([] : Deps) filename (checksum_coverage m.blocks [1])
        .ok { st' with changed_node_data := PyDict.insert st'.changed_node_data nodeid record }
    else
      .ok { st with changed_node_data := PyDict.insert st.changed_node_data nodeid result }

/-- TestmonData.collect_garbage: the body is a bare return (the removal
loops under it were disabled for causing data loss and are unreachable), so
the call leaves every attribute untouched. -/
def collect_garbage (st : TDState) (allnodeids : List String) : TDState :=
  st

/-- The assignment files[filename][nodeid] = checksums of flip_dictionary,
on a defaultdict of insertion-ordered dictionaries: fe is the (filename,
checksums) pair of one file of a node's record. -/
def flip_insert_file (nodeid : String) (files : FileData)
    (fe : String × List Int) : FileData :=
  PyDict.insert files fe.1
    (PyDict.insert ((PyDict.lookup files fe.1).getD []) nodeid fe.2)

/-- The body of the outer loop of flip_dictionary: fold one node's record
(e is the (nodeid, node_files) item) into the accumulated files. -/
def flip_insert_node (files : FileData) (e : String × Deps) : FileData :=
  e.2.foldl (flip_insert_file e.1) files

/-- flip_dictionary: invert node_data (nodeid to file to checksums) into
file to (nodeid to checksums), built by files[filename][nodeid] =
checksums over the items of node_data. -/
def flip_dictionary (node_data : NodeData) : FileData :=
  node_data.foldl flip_insert_node []

/-- One iteration of the inner loop of unaffected, for one (nodeid,
checksums) pair recorded against file: when set(checksums) -
set(changed_files[file].checksums) is nonempty, del the file from
unaffected_files and the nodeid from unaffected_nodes; del raises KeyError
(the error value) when the key is already gone. -/
def unaffectedStep (changed_files : List (String × Module)) (file : String)
    (st : NodeData × FileData) (p : String × List Int) :
    Except String (NodeData × FileData) :=
  match PyDict.lookup changed_files file with
  | none => .ok st
  | some m =>
    if p.2.any (fun c => !(m.checksums.contains c)) then
      match PyDict.delete st.2 file with
      | none => .error "KeyError"
      | some uf =>
        match PyDict.delete st.1 p.1 with
        | none => .error "KeyError"
        | some un => .ok (un, uf)
    else
      .ok st

/-- The body of the outer loop of unaffected: visit every (nodeid,
checksums) pair file_data records for one file. -/
def unaffectedFileStep (changed_files : List (String × Module))
    (file_data : FileData) (st : NodeData × FileData) (file : String) :
    Except String (NodeData × FileData) :=
  ((PyDict.lookup file_data file).getD []).foldlM
    (unaffectedStep changed_files file) st

/-- Lookup of file then nodeid in a flipped index, with the defaultdict
empty-dictionary default. -/
def lookup2 (file_data : FileData) (f n : String) : Option (List Int) :=
  PyDict.lookup ((PyDict.lookup file_data f).getD []) n

/-- The change analyzer unaffected(node_data, changed_files): starting from
copies of node_data and its flip, visit every file common to changed_files
and the flipped index (one fixed enumeration of the unordered Python set
intersection) and every (nodeid, checksums) pair recorded for it. -/
def unaffected (node_data : NodeData) (changed_files : List (String × Module)) :
    Except String (NodeData × FileData) :=
  let file_data := flip_dictionary node_data
  ((PyDict.keys file_data).filter
      (fun f => (PyDict.lookup changed_files f).isSome)).foldlM
    (unaffectedFileStep changed_files file_data)
    (node_data, file_data)

/-- Python self.mtimes.get(py_file) != new_mtime is false exactly when the
stored value is the same number; a missing entry (None) or the [-2] list
sentinel never equals the float os.path.getmtime returns. -/
def mtime_matches (stored : Option MVal) (new_mtime : Int) : Bool :=
  match stored with
  | some (MVal.mt t) => decide (t = new_mtime)
  | _ => false

/-- One iteration of the read_fs loop over a file of the index: a missing
file's OSError is caught and the [-2] sentinel stored under its mtimes key;
otherwise the file is re-parsed when its on-disk mtime differs from the
stored one (parse_file's own OSError falls into the same except clause). -/
def read_fs_step (fs : Fs) (st : TDState) (py_file : String) : TDState :=
  match fs py_file with
  | none =>
    { st with mtimes := PyDict.insert st.mtimes py_file MVal.missingSentinel }
  | some f =>
    if mtime_matches (PyDict.lookup st.mtimes py_file) f.mtime then st
    else
      match parse_file st fs py_file (some f.mtime) with
      | .ok (_, st') => st'
      | .error _ =>
        { st with mtimes := PyDict.insert st.mtimes py_file MVal.missingSentinel }

/-- The state and analysis results read_fs leaves on the TestmonData. -/
structure ReadFsResult where
  state : TDState
  unaffected_nodeids : NodeData
  unaffected_files : FileData
deriving DecidableEq

/-- TestmonData.read_fs: with the stored attributes loaded into st by
read_data, walk the files of the index (the keys of self.file_data())
refreshing changed_files and mtimes, then compute_unaffected over
node_data and the re-parsed files. -/
def read_fs (st : TDState) (fs : Fs) : Except String ReadFsResult :=
  let files := PyDict.keys (flip_dictionary st.node_data)
  let st := files.foldl (read_fs_step fs) st
  match unaffected st.node_data st.changed_files with
  | .ok (un, uf) => .ok ⟨st, un, uf⟩
  | .error e => .error e

/-- Result of invoking the tracked callable under the started tracer:
whether it raised (the exception value, verbatim) and the coverage data the
tracer holds once stopped (after cov.combine() in subprocess mode). -/
structure RunOutcome where
  exc : Option String
  cov : CovData

/-- Testmon.stop_and_save: stop the tracer, merge subprocess data, and
stage the record of nodeid through set_dependencies. -/
def stop_and_save (st : TDState) (fs : Fs) (cov : CovData)
    (rootdir nodeid : String) : Except String TDState :=
  set_dependencies st fs nodeid cov rootdir

/-- Testmon.track_dependencies: run the callable between start() and a
finally clause; the bare raise in the except clause re-raises the
callable's exception unchanged, stop_and_save runs in the finally on every
exit path, and an exception the finally itself raises replaces the
in-flight one, as in Python. -/
def track_dependencies (run : RunOutcome) (st : TDState) (fs : Fs)
    (rootdir nodeid : String) : Except String TDState :=
  match stop_and_save st fs run.cov rootdir nodeid with
  | .error e2 => .error e2
  | .ok st' =>
    match run.exc with
    | some e => .error e
    | none => .ok st'

/-- A value a successful Python eval of the variant expression produced;
the str field is what str() renders it as. -/
structure PyVal where
  str : String

/-- An Exception instance raised during the evaluation (the except clause
of the source catches Exception); the repr field is what repr() renders it
as. -/
structure PyExc where
  repr : String

/-- eval_variant: a missing (None) or empty expression yields the empty
string before any evaluation; otherwise the eval outcome (an input of the
model) is rendered with str on success and with repr of the caught
Exception on failure. -/
def eval_variant (run_variant : Option String) (outcome : Except PyExc PyVal) :
    String :=
  match run_variant with
  | none => ""
  | some rv =>
    if rv = "" then ""
    else
      match outcome with
      | .ok v => v.str
      | .error e => e.repr

end Testmon

/-!
Concrete instances used to exercise the theorems below on closed inputs.
-/

namespace Testmon

/-- A loaded state whose only test depends on a.py, with a recorded mtime. -/
def c2_state : TDState :=
  { mtimes := [("a.py", MVal.mt 5)],
    node_data := [("t::x", [("a.py", [7])])],
    lastfailed := [], changed_files := [], changed_mtimes := [],
    changed_node_data := [] }

/-- A file system on which every path is missing. -/
def c2_fs : Fs := fun _ => none

/-- The state c2_state reaches after its read_fs loop: the missing file's
mtimes entry holds the sentinel and nothing was re-parsed. -/
def c2_state2 : TDState :=
  { mtimes := [("a.py", MVal.missingSentinel)],
    node_data := [("t::x", [("a.py", [7])])],
    lastfailed := [], changed_files := [], changed_mtimes := [],
    changed_node_data := [] }

/-- The full result of read_fs on c2_state over c2_fs. -/
def c2_result : ReadFsResult :=
  { state := c2_state2,
    unaffected_nodeids := [("t::x", [("a.py", [7])])],
    unaffected_files := [("a.py", [("t::x", [7])])] }

/-- A state holding one record and one lastfailed entry for a test that is
no longer in the live inventory. -/
def c3_st : TDState :=
  { mtimes := [], node_data := [("dead::t", [("x.py", [1])])],
    lastfailed := ["dead::t"], changed_files := [], changed_mtimes := [],
    changed_node_data := [] }

/-- A one-test index whose recorded checksum is still present below. -/
def c5_nd : NodeData := [("t::a", [("a.py", [7])])]

/-- A re-parse of a.py that still contains checksum 7 (plus a new block). -/
def c5_ch : List (String × Module) := [("a.py", ⟨[⟨1, 3, 7⟩, ⟨4, 6, 8⟩]⟩)]

/-- The unaffected_files half of the unaffected call on c5_nd and c5_ch. -/
def c5_uf : FileData := [("a.py", [("t::a", [7])])]

/-- A one-test index depending on b.py with checksum 1. -/
def c6_nd : NodeData := [("t6::b", [("b.py", [1])])]

/-- A re-parse of b.py containing exactly the recorded block. -/
def c6_ch : List (String × Module) := [("b.py", ⟨[⟨1, 2, 1⟩]⟩)]

/-- The same re-parse enlarged by one extra block. -/
def c6_ch2 : List (String × Module) := [("b.py", ⟨[⟨1, 2, 1⟩, ⟨3, 4, 2⟩]⟩)]

/-- The unaffected_files half of the unaffected calls on c6_nd. -/
def c6_uf : FileData := [("b.py", [("t6::b", [1])])]

/-- A freshly constructed TestmonData state, empty everywhere. -/
def c7_st : TDState :=
  { mtimes := [], node_data := [], lastfailed := [], changed_files := [],
    changed_mtimes := [], changed_node_data := [] }

/-- A file system holding only the test source file of the c7 nodeid. -/
def c7_fs : Fs := fun f =>
  if f = "proj/tests/test_x.py" then some ⟨10, [⟨1, 5, 99⟩]⟩ else none

/-- Coverage data whose only measured file does not exist on disk. -/
def c7_cov : CovData := { measured_files := ["gone.py"], lines := fun _ => [] }

/-- A loaded state whose only test depends on m.py, mtime unchanged. -/
def c8_st : TDState :=
  { mtimes := [("m.py", MVal.mt 5)],
    node_data := [("t8::y", [("m.py", [3])])],
    lastfailed := [], changed_files := [], changed_mtimes := [],
    changed_node_data := [] }

/-- A file system where m.py exists with the recorded mtime. -/
def c8_fs : Fs := fun f => if f = "m.py" then some ⟨5, [⟨1, 2, 3⟩]⟩ else none

/-- The result of read_fs on c8_st over c8_fs: nothing re-parsed, the test
unaffected. -/
def c8_res : ReadFsResult :=
  { state := c8_st,
    unaffected_nodeids := [("t8::y", [("m.py", [3])])],
    unaffected_files := [("m.py", [("t8::y", [3])])] }

/-- A fresh state for the tracking-session instance. -/
def c9_st : TDState :=
  { mtimes := [], node_data := [], lastfailed := [], changed_files := [],
    changed_mtimes := [], changed_node_data := [] }

/-- A file system holding the test source file of the c9 nodeid. -/
def c9_fs : Fs := fun f => if f = "r/t.py" then some ⟨4, [⟨1, 2, 11⟩]⟩ else none

/-- Coverage data with no measured files at all. -/
def c9_cov : CovData := { measured_files := [], lines := fun _ => [] }

/-- The state stop_and_save stages from c9_st: the sentinel record of the
empty-coverage test. -/
def c9_st2 : TDState :=
  { mtimes := [], node_data := [], lastfailed := [],
    changed_files := [("r/t.py", ⟨[⟨1, 2, 11⟩]⟩)],
    changed_mtimes := [("r/t.py", MVal.mt 4)],
    changed_node_data := [("t.py::tc", [("r/t.py", [11])])] }

end Testmon

-- WITNESS-DEFS-MARKER

/-!
Theorems.  Dictionary lemmas first, then the store round-trip, then the
analyzer properties.
-/

namespace PyDict

theorem lookup_insert_self {α : Type} (d : List (String × α)) (k : String) (v : α) :
    lookup (insert d k v) k = some v := by
  induction d with
  | nil => simp [insert, lookup]
  | cons e rest ih =>
    obtain ⟨k', v'⟩ := e
    by_cases h : k' = k
    · simp [insert, h, lookup]
    · simp [insert, h, lookup, ih]

theorem lookup_insert_ne {α : Type} (d : List (String × α)) (k k' : String) (v : α)
    (h : k' ≠ k) : lookup (insert d k v) k' = lookup d k' := by
  have hk' : ¬ k = k' := fun hc => h hc.symm
  induction d with
  | nil => simp [insert, lookup, hk']
  | cons e rest ih =>
    obtain ⟨k0, v0⟩ := e
    by_cases hk : k0 = k
    · subst hk
      simp [insert, lookup, hk']
    · simp only [insert, if_neg hk, lookup]
      by_cases hk0 : k0 = k'
      · simp [hk0]
      · simp [hk0, ih]

theorem lookup_erase_self {α : Type} (d : List (String × α)) (k : String) :
    lookup (erase d k) k = none := by
  induction d with
  | nil => simp [erase, lookup]
  | cons e rest ih =>
    obtain ⟨k', v'⟩ := e
    by_cases h : k' = k
    · simp_all [erase, List.filter]
    · simp_all [erase, List.filter, lookup, h]

theorem lookup_erase_ne {α : Type} (d : List (String × α)) (k k' : String)
    (h : k' ≠ k) : lookup (erase d k) k' = lookup d k' := by
  induction d with
  | nil => simp [erase, lookup]
  | cons e rest ih =>
    obtain ⟨k0, v0⟩ := e
    have hkk : ¬ k = k' := fun hc => h hc.symm
    by_cases hk : k0 = k
    · subst hk
      simp_all [erase, List.filter, lookup]
    · by_cases hk0 : k0 = k'
      · simp_all [erase, List.filter, lookup, hk]
      · simp_all [erase, List.filter, lookup, hk]

theorem lookup_mem {α : Type} (d : List (String × α)) (k : String) (v : α)
    (h : lookup d k = some v) : (k, v) ∈ d := by
  induction d with
  | nil => simp [lookup] at h
  | cons e rest ih =>
    obtain ⟨k', v'⟩ := e
    by_cases hk : k' = k
    · subst hk
      simp [lookup] at h
      simp [h]
    · simp [lookup, hk] at h
      exact List.mem_cons_of_mem _ (ih h)

theorem mem_lookup_of_nodup {α : Type} (d : List (String × α)) (k : String) (v : α)
    (hd : (keys d).Nodup) (h : (k, v) ∈ d) : lookup d k = some v := by
  induction d with
  | nil => simp at h
  | cons e rest ih =>
    obtain ⟨k', v'⟩ := e
    simp only [keys, List.map_cons, List.nodup_cons] at hd
    rcases List.mem_cons.mp h with h1 | h1
    · rw [Prod.mk.injEq] at h1
      obtain ⟨hk, hv⟩ := h1
      subst hk
      subst hv
      simp [lookup]
    · have hk : k' ≠ k := by
        intro hc
        subst hc
        exact hd.1 (List.mem_map.mpr ⟨(k', v), h1, rfl⟩)
      simp [lookup, hk]
      exact ih hd.2 h1

theorem lookup_isSome_mem_keys {α : Type} (d : List (String × α)) (k : String)
    (h : (lookup d k).isSome) : k ∈ keys d := by
  induction d with
  | nil => simp [lookup] at h
  | cons e rest ih =>
    obtain ⟨k', v'⟩ := e
    by_cases hk : k' = k
    · simp [keys, hk]
    · simp only [lookup, if_neg hk] at h
      simp [keys] at ih ⊢
      rcases ih h with ⟨b, hb⟩
      exact Or.inr ⟨b, hb⟩

theorem keys_insert {α : Type} (d : List (String × α)) (k : String) (v : α) :
    keys (insert d k v) = if k ∈ keys d then keys d else keys d ++ [k] := by
  induction d with
  | nil => simp [insert, keys]
  | cons e rest ih =>
    obtain ⟨k', v'⟩ := e
    by_cases hk : k' = k
    · subst hk
      simp [insert, keys]
    · have hk2 : ¬ k = k' := fun hc => hk hc.symm
      simp only [insert, if_neg hk, keys, List.map_cons] at ih ⊢
      rw [ih]
      by_cases hm : k ∈ keys rest
      · simp [keys] at hm
        simp [hm, hk2, keys]
      · simp [keys] at hm
        simp [hm, hk2, keys]

theorem keys_insert_nodup {α : Type} (d : List (String × α)) (k : String) (v : α)
    (hd : (keys d).Nodup) : (keys (insert d k v)).Nodup := by
  rw [keys_insert]
  by_cases hm : k ∈ keys d
  · simp [hm, hd]
  · simp [hm]
    refine List.Nodup.append hd (List.nodup_singleton k) ?hdisj
    intro a ha hb
    rw [List.mem_singleton] at hb
    subst hb
    exact hm ha

theorem mem_insert {α : Type} (d : List (String × α)) (k : String) (v : α)
    (e : String × α) (h : e ∈ insert d k v) : e = (k, v) ∨ e ∈ d := by
  induction d with
  | nil => simp [insert] at h; simp [h]
  | cons e0 rest ih =>
    obtain ⟨k', v'⟩ := e0
    by_cases hk : k' = k
    · simp [insert, hk] at h
      rcases h with h | h
      · exact Or.inl h
      · exact Or.inr (List.mem_cons_of_mem _ h)
    · simp only [insert, if_neg hk] at h
      rcases List.mem_cons.mp h with h | h
      · exact Or.inr (by simp [h])
      · rcases ih h with h1 | h1
        · exact Or.inl h1
        · exact Or.inr (List.mem_cons_of_mem _ h1)

theorem lookup_eq_none {α : Type} (d : List (String × α)) (k : String)
    (h : k ∉ keys d) : lookup d k = none := by
  cases hl : lookup d k with
  | none => rfl
  | some v =>
    exact absurd (lookup_isSome_mem_keys d k (by rw [hl]; rfl)) h

theorem delete_eq_some {α : Type} (d : List (String × α)) (k : String)
    (d' : List (String × α)) (h : delete d k = some d') : d' = erase d k := by
  unfold delete at h
  by_cases hp : (lookup d k).isSome
  · rw [if_pos hp] at h
    cases h
    rfl
  · rw [if_neg hp] at h
    cases h

end PyDict

theorem string_append_ne (v a b : String) (h : a ≠ b) : v ++ a ≠ v ++ b := by
  intro hc
  apply h
  have hd : v.data ++ a.data = v.data ++ b.data := by
    have h1 : (v ++ a).data = v.data ++ a.data := rfl
    have h2 : (v ++ b).data = v.data ++ b.data := rfl
    rw [← h1, ← h2, hc]
  have : a.data = b.data := List.append_cancel_left hd
  exact congrArg String.mk this

theorem store_key_ne (v a b : String) (h : a ≠ b) :
    v ++ ":" ++ a ≠ v ++ ":" ++ b :=
  string_append_ne (v ++ ":") a b h

/-- C1: Store round-trip.  For every prior store content, variant and
in-memory state (mtimes, node_data, reports, lastfailed together with the
staged changed_* deltas), write_data (flush) followed by read_data (load)
on the resulting store reproduces the post-flush in-memory state exactly. -/
theorem store_round_trip (db : StoreDb) (variant : String) (mem : InMemData)
    (changed_mtimes changed_node_data changed_reports : List (String × JVal)) :
    read_data (write_data db variant mem
        changed_mtimes changed_node_data changed_reports).2 variant =
      ((write_data db variant mem
          changed_mtimes changed_node_data changed_reports).1.mtimes |> JVal.jobj,
       (write_data db variant mem
          changed_mtimes changed_node_data changed_reports).1.node_data |> JVal.jobj,
       (write_data db variant mem
          changed_mtimes changed_node_data changed_reports).1.reports |> JVal.jobj,
       JVal.jarr (write_data db variant mem
          changed_mtimes changed_node_data changed_reports).1.lastfailed) := by
  have hMN : variant ++ ":" ++ "mtimes" ≠ variant ++ ":" ++ "node_data" :=
    store_key_ne _ _ _ (by decide)
  have hML : variant ++ ":" ++ "mtimes" ≠ variant ++ ":" ++ "lastfailed" :=
    store_key_ne _ _ _ (by decide)
  have hMR : variant ++ ":" ++ "mtimes" ≠ variant ++ ":" ++ "reports" :=
    store_key_ne _ _ _ (by decide)
  have hNL : variant ++ ":" ++ "node_data" ≠ variant ++ ":" ++ "lastfailed" :=
    store_key_ne _ _ _ (by decide)
  have hNR : variant ++ ":" ++ "node_data" ≠ variant ++ ":" ++ "reports" :=
    store_key_ne _ _ _ (by decide)
  have hLR : variant ++ ":" ++ "lastfailed" ≠ variant ++ ":" ++ "reports" :=
    store_key_ne _ _ _ (by decide)
  simp only [write_data, read_data, fetch_attribute, write_attribute,
    PyDict.lookup_insert_self,
    PyDict.lookup_insert_ne _ _ _ _ hMN, PyDict.lookup_insert_ne _ _ _ _ hML,
    PyDict.lookup_insert_ne _ _ _ _ hMR, PyDict.lookup_insert_ne _ _ _ _ hNL,
    PyDict.lookup_insert_ne _ _ _ _ hNR, PyDict.lookup_insert_ne _ _ _ _ hLR]

/-!
Generic fold lemmas for the loop bodies of the source: an invariant holds
after a plain for loop, an invariant holds after a loop whose body may
raise when the whole loop ran without raising, and a successful loop over
an append or cons decomposes into successful parts.
-/

theorem foldl_inv {σ α : Type} (f : σ → α → σ) (P : σ → Prop) :
    ∀ (l : List α) (s : σ), (∀ t a, a ∈ l → P t → P (f t a)) → P s →
      P (l.foldl f s) := by
  intro l
  induction l with
  | nil => intro s _ hs; simpa using hs
  | cons a l ih =>
    intro s hstep hs
    simp only [List.foldl_cons]
    exact ih (f s a) (fun t b hb ht => hstep t b (List.mem_cons_of_mem a hb) ht)
      (hstep s a (List.mem_cons_self a l) hs)

theorem foldlM_ok_inv {σ α : Type} (step : σ → α → Except String σ) (P : σ → Prop) :
    ∀ (l : List α) (s s' : σ),
      (∀ t a, a ∈ l → P t → ∀ t', step t a = .ok t' → P t') →
      P s → l.foldlM step s = .ok s' → P s' := by
  intro l
  induction l with
  | nil =>
    intro s s' _ hs hrun
    simp only [List.foldlM_nil] at hrun
    cases hrun
    exact hs
  | cons a l ih =>
    intro s s' hstep hs hrun
    rw [List.foldlM_cons] at hrun
    cases hstep1 : step s a with
    | error e => rw [hstep1] at hrun; cases hrun
    | ok s1 =>
      rw [hstep1] at hrun
      exact ih s1 s' (fun t b hb ht => hstep t b (List.mem_cons_of_mem a hb) ht)
        (hstep s a (List.mem_cons_self a l) hs s1 hstep1) hrun

theorem foldlM_ok_append {σ α : Type} (step : σ → α → Except String σ)
    (l1 l2 : List α) (s s' : σ) (h : (l1 ++ l2).foldlM step s = .ok s') :
    ∃ s1, l1.foldlM step s = .ok s1 ∧ l2.foldlM step s1 = .ok s' := by
  rw [List.foldlM_append] at h
  cases h1 : l1.foldlM step s with
  | error e => rw [h1] at h; cases h
  | ok s1 =>
    rw [h1] at h
    exact ⟨s1, rfl, h⟩

theorem foldlM_ok_cons {σ α : Type} (step : σ → α → Except String σ)
    (a : α) (l : List α) (s s' : σ) (h : (a :: l).foldlM step s = .ok s') :
    ∃ s1, step s a = .ok s1 ∧ l.foldlM step s1 = .ok s' := by
  rw [List.foldlM_cons] at h
  cases h1 : step s a with
  | error e => rw [h1] at h; cases h
  | ok s1 =>
    rw [h1] at h
    exact ⟨s1, rfl, h⟩

-- ANALYZER-THEOREMS-MARKER

/-!
Structure of the flipped index.  flip_dictionary builds file_data so that
file_data[f][n] is exactly node_data[n][f]; the lemmas below prove that
correspondence and the uniqueness of keys in what the fold builds.
-/

namespace Testmon

theorem flip_insert_file_lookup_self (n0 : String) (files : FileData)
    (f0 : String) (cks : List Int) :
    PyDict.lookup (flip_insert_file n0 files (f0, cks)) f0 =
      some (PyDict.insert ((PyDict.lookup files f0).getD []) n0 cks) :=
  PyDict.lookup_insert_self _ _ _

theorem flip_insert_file_lookup_ne (n0 : String) (files : FileData)
    (f0 : String) (cks : List Int) (f : String) (h : f ≠ f0) :
    PyDict.lookup (flip_insert_file n0 files (f0, cks)) f =
      PyDict.lookup files f :=
  PyDict.lookup_insert_ne _ _ _ _ h

theorem flip_insert_file_lookup2_ne (n0 : String) (files : FileData)
    (fe : String × List Int) (f n : String) (hn : n ≠ n0) :
    lookup2 (flip_insert_file n0 files fe) f n = lookup2 files f n := by
  obtain ⟨f0, cks0⟩ := fe
  by_cases hf : f = f0
  · subst hf
    unfold lookup2
    rw [flip_insert_file_lookup_self]
    simp only [Option.getD_some]
    exact PyDict.lookup_insert_ne _ _ _ _ hn
  · unfold lookup2
    rw [flip_insert_file_lookup_ne _ _ _ _ _ hf]

theorem flip_insert_node_lookup2_ne (files : FileData) (e : String × Deps)
    (f n : String) (hn : n ≠ e.1) :
    lookup2 (flip_insert_node files e) f n = lookup2 files f n := by
  obtain ⟨n0, nf⟩ := e
  simp only at hn
  unfold flip_insert_node
  simp only
  induction nf generalizing files with
  | nil => rfl
  | cons fe rest ih =>
    simp only [List.foldl_cons]
    rw [ih (flip_insert_file n0 files fe)]
    exact flip_insert_file_lookup2_ne n0 files fe f n hn

theorem flip_insert_node_lookup2_self (files : FileData) (n0 : String)
    (nf : Deps) (f : String) (hnf : (PyDict.keys nf).Nodup) :
    lookup2 (flip_insert_node files (n0, nf)) f n0 =
      match PyDict.lookup nf f with
      | some cks => some cks
      | none => lookup2 files f n0 := by
  induction nf generalizing files with
  | nil => rfl
  | cons fe rest ih =>
    obtain ⟨f0, cks0⟩ := fe
    simp only [PyDict.keys, List.map_cons, List.nodup_cons] at hnf
    have hrest : (PyDict.keys rest).Nodup := hnf.2
    have hf0 : f0 ∉ PyDict.keys rest := by
      intro hc
      exact hnf.1 hc
    show lookup2 (rest.foldl (flip_insert_file n0)
        (flip_insert_file n0 files (f0, cks0))) f n0 = _
    have hstep := ih (flip_insert_file n0 files (f0, cks0)) hrest
    unfold flip_insert_node at hstep
    simp only at hstep
    rw [hstep]
    by_cases hf : f0 = f
    · subst hf
      have hnone : PyDict.lookup rest f0 = none := PyDict.lookup_eq_none rest f0 hf0
      rw [hnone]
      simp [lookup2, flip_insert_file_lookup_self, PyDict.lookup_insert_self,
        PyDict.lookup]
    · simp only [PyDict.lookup, if_neg hf]
      cases hr : PyDict.lookup rest f with
      | some cks => simp
      | none =>
        simp only
        unfold lookup2
        rw [flip_insert_file_lookup_ne _ _ _ _ _ (fun hc => hf hc.symm)]

theorem flip_fold_lookup2_not_mem (nd : NodeData) (acc : FileData)
    (f n : String) (hn : n ∉ PyDict.keys nd) :
    lookup2 (nd.foldl flip_insert_node acc) f n = lookup2 acc f n := by
  induction nd generalizing acc with
  | nil => rfl
  | cons e rest ih =>
    simp only [PyDict.keys, List.map_cons, List.mem_cons] at hn
    push_neg at hn
    simp only [List.foldl_cons]
    rw [ih (flip_insert_node acc e) hn.2]
    exact flip_insert_node_lookup2_ne acc e f n hn.1

theorem flip_fold_lookup2 (nd : NodeData) (acc : FileData) (f n : String)
    (hknd : (PyDict.keys nd).Nodup)
    (hvnd : ∀ e ∈ nd, (PyDict.keys e.2).Nodup) :
    lookup2 (nd.foldl flip_insert_node acc) f n =
      match PyDict.lookup nd n with
      | some deps =>
        match PyDict.lookup deps f with
        | some cks => some cks
        | none => lookup2 acc f n
      | none => lookup2 acc f n := by
  induction nd generalizing acc with
  | nil => rfl
  | cons e rest ih =>
    obtain ⟨n0, nf⟩ := e
    simp only [PyDict.keys, List.map_cons, List.nodup_cons] at hknd
    simp only [List.foldl_cons]
    by_cases hn : n = n0
    · subst hn
      have hnotmem : n ∉ PyDict.keys rest := hknd.1
      rw [flip_fold_lookup2_not_mem rest (flip_insert_node acc (n, nf)) f n hnotmem]
      rw [flip_insert_node_lookup2_self acc n nf f
        (hvnd (n, nf) (List.mem_cons_self _ _))]
      simp [PyDict.lookup]
    · have hne : ¬ n0 = n := fun hc => hn hc.symm
      rw [ih (flip_insert_node acc (n0, nf)) hknd.2
        (fun e he => hvnd e (List.mem_cons_of_mem _ he))]
      rw [flip_insert_node_lookup2_ne acc (n0, nf) f n hn]
      simp only [PyDict.lookup, if_neg hne]

theorem flip_dictionary_lookup2 (nd : NodeData) (f n : String)
    (hknd : (PyDict.keys nd).Nodup)
    (hvnd : ∀ e ∈ nd, (PyDict.keys e.2).Nodup) :
    lookup2 (flip_dictionary nd) f n =
      (PyDict.lookup nd n).bind (fun deps => PyDict.lookup deps f) := by
  unfold flip_dictionary
  rw [flip_fold_lookup2 nd [] f n hknd hvnd]
  cases hr : PyDict.lookup nd n with
  | none => rfl
  | some deps =>
    cases hd : PyDict.lookup deps f with
    | some cks => simp [hd]
    | none => simp [hd, lookup2, PyDict.lookup]

end Testmon

namespace Testmon

theorem flip_insert_file_values_nodup (n0 : String) (files : FileData)
    (fe : String × List Int) (h : ∀ e ∈ files, (PyDict.keys e.2).Nodup) :
    ∀ e ∈ flip_insert_file n0 files fe, (PyDict.keys e.2).Nodup := by
  intro e he
  obtain ⟨f0, cks0⟩ := fe
  rcases PyDict.mem_insert _ _ _ e he with h1 | h1
  · subst h1
    refine PyDict.keys_insert_nodup _ _ _ ?hprev
    cases hl : PyDict.lookup files f0 with
    | none => simp [PyDict.keys]
    | some l =>
      simp only [Option.getD_some]
      exact h (f0, l) (PyDict.lookup_mem files f0 l hl)
  · exact h e h1

theorem flip_values_nodup (nd : NodeData) :
    ∀ e ∈ flip_dictionary nd, (PyDict.keys e.2).Nodup := by
  unfold flip_dictionary
  refine foldl_inv flip_insert_node
    (fun files => ∀ e ∈ files, (PyDict.keys e.2).Nodup) nd [] ?step ?base
  case base => intro e he; cases he
  case step =>
    intro files en _ hfiles
    obtain ⟨n0, nf⟩ := en
    unfold flip_insert_node
    simp only
    refine foldl_inv (flip_insert_file n0)
      (fun files => ∀ e ∈ files, (PyDict.keys e.2).Nodup) nf files ?istep hfiles
    intro t fe _ ht
    exact flip_insert_file_values_nodup n0 t fe ht

theorem flip_keys_nodup (nd : NodeData) :
    (PyDict.keys (flip_dictionary nd)).Nodup := by
  unfold flip_dictionary
  refine foldl_inv flip_insert_node
    (fun files => (PyDict.keys files).Nodup) nd [] ?step ?base
  case base => simp [PyDict.keys]
  case step =>
    intro files en _ hfiles
    obtain ⟨n0, nf⟩ := en
    unfold flip_insert_node
    simp only
    refine foldl_inv (flip_insert_file n0)
      (fun files => (PyDict.keys files).Nodup) nf files ?istep hfiles
    intro t fe _ ht
    exact PyDict.keys_insert_nodup _ _ _ ht

/-!
Behaviour of one unaffected loop step: when it returns, an absent nodeid
stays absent, a present nodeid either keeps its value or disappears, and
the step never re-adds anything.
-/

theorem unaffectedStep_absent (changed_files : List (String × Module))
    (file : String) (st : NodeData × FileData) (p : String × List Int)
    (st' : NodeData × FileData)
    (h : unaffectedStep changed_files file st p = .ok st') (k : String)
    (hk : PyDict.lookup st.1 k = none) : PyDict.lookup st'.1 k = none := by
  unfold unaffectedStep at h
  split at h
  · cases h
    exact hk
  · split at h
    · split at h
      · cases h
      · split at h
        · cases h
        · rename_i uf hd2 un hd1
          cases h
          rw [PyDict.delete_eq_some st.1 p.1 un hd1]
          by_cases hkp : k = p.1
          · subst hkp
            exact PyDict.lookup_erase_self st.1 p.1
          · rw [PyDict.lookup_erase_ne st.1 p.1 k hkp]
            exact hk
    · cases h
      exact hk

theorem unaffectedStep_sub (changed_files : List (String × Module))
    (file : String) (st : NodeData × FileData) (p : String × List Int)
    (st' : NodeData × FileData)
    (h : unaffectedStep changed_files file st p = .ok st') (k : String)
    (v : Deps) (hk : PyDict.lookup st'.1 k = some v) :
    PyDict.lookup st.1 k = some v := by
  unfold unaffectedStep at h
  split at h
  · cases h
    exact hk
  · split at h
    · split at h
      · cases h
      · split at h
        · cases h
        · rename_i uf hd2 un hd1
          cases h
          rw [PyDict.delete_eq_some st.1 p.1 un hd1] at hk
          by_cases hkp : k = p.1
          · subst hkp
            rw [PyDict.lookup_erase_self st.1 p.1] at hk
            cases hk
          · rw [PyDict.lookup_erase_ne st.1 p.1 k hkp] at hk
            exact hk
    · cases h
      exact hk

end Testmon

namespace Testmon

theorem unaffectedStep_other (changed_files : List (String × Module))
    (file : String) (st : NodeData × FileData) (p : String × List Int)
    (st' : NodeData × FileData)
    (h : unaffectedStep changed_files file st p = .ok st') (k : String)
    (hne : k ≠ p.1) : PyDict.lookup st'.1 k = PyDict.lookup st.1 k := by
  unfold unaffectedStep at h
  split at h
  · cases h
    rfl
  · split at h
    · split at h
      · cases h
      · split at h
        · cases h
        · rename_i uf hd2 un hd1
          cases h
          rw [PyDict.delete_eq_some st.1 p.1 un hd1]
          exact PyDict.lookup_erase_ne st.1 p.1 k hne
    · cases h
      rfl

/-- Soundness half of the unaffected classification: when the call returns
and every checksum a test recorded for any re-parsed file is still present
in that file, the test's entry survives in unaffected_nodes unchanged. -/
theorem unaffected_sound (nd : NodeData) (ch : List (String × Module))
    (t : String) (deps : Deps) (un : NodeData) (uf : FileData)
    (hknd : (PyDict.keys nd).Nodup)
    (hvnd : ∀ e ∈ nd, (PyDict.keys e.2).Nodup)
    (ht : PyDict.lookup nd t = some deps)
    (hsub : ∀ f cks m, PyDict.lookup deps f = some cks →
        PyDict.lookup ch f = some m → ∀ c ∈ cks, c ∈ m.checksums)
    (hrun : unaffected nd ch = .ok (un, uf)) :
    PyDict.lookup un t = some deps := by
  simp only [unaffected] at hrun
  refine foldlM_ok_inv (unaffectedFileStep ch (flip_dictionary nd))
      (fun st => PyDict.lookup st.1 t = some deps)
      ((PyDict.keys (flip_dictionary nd)).filter
        (fun f => (PyDict.lookup ch f).isSome))
      (nd, flip_dictionary nd) (un, uf) ?step ht hrun
  intro s file _ hs s' hstep
  unfold unaffectedFileStep at hstep
  refine foldlM_ok_inv (unaffectedStep ch file)
      (fun u => PyDict.lookup u.1 t = some deps)
      ((PyDict.lookup (flip_dictionary nd) file).getD []) s s' ?pstep hs hstep
  intro u p hpmem hu u' hustep
  by_cases hp : p.1 = t
  · cases hfd : PyDict.lookup (flip_dictionary nd) file with
    | none =>
      rw [hfd] at hpmem
      simp at hpmem
    | some lst =>
      rw [hfd] at hpmem
      simp only [Option.getD_some] at hpmem
      have hlstnodup : (PyDict.keys lst).Nodup :=
        flip_values_nodup nd (file, lst) (PyDict.lookup_mem _ _ _ hfd)
      have hmemt : (t, p.2) ∈ lst := by
        rw [← hp]
        simpa using hpmem
      have hplookup : PyDict.lookup lst t = some p.2 :=
        PyDict.mem_lookup_of_nodup lst t p.2 hlstnodup hmemt
      have hl2 : lookup2 (flip_dictionary nd) file t = some p.2 := by
        unfold lookup2
        rw [hfd]
        simpa using hplookup
      rw [flip_dictionary_lookup2 nd file t hknd hvnd, ht] at hl2
      simp only [Option.some_bind] at hl2
      unfold unaffectedStep at hustep
      split at hustep
      · cases hustep
        exact hu
      · rename_i m hm
        have hcond : (p.2.any fun c => !(m.checksums.contains c)) = false := by
          simp only [List.any_eq_false]
          intro c hc
          simp [hsub file p.2 m hl2 hm c hc]
        rw [hcond] at hustep
        simp only [Bool.false_eq_true, if_false] at hustep
        cases hustep
        exact hu
  · rw [unaffectedStep_other ch file u p u' hustep t (fun hc => hp hc.symm)]
    exact hu

end Testmon

namespace Testmon

theorem unaffectedFileStep_absent (ch : List (String × Module)) (fd : FileData)
    (st : NodeData × FileData) (file : String) (st' : NodeData × FileData)
    (h : unaffectedFileStep ch fd st file = .ok st') (k : String)
    (hk : PyDict.lookup st.1 k = none) : PyDict.lookup st'.1 k = none := by
  unfold unaffectedFileStep at h
  exact foldlM_ok_inv _ (fun u => PyDict.lookup u.1 k = none) _ st st'
    (fun u p _ hu u' hstep => unaffectedStep_absent ch file u p u' hstep k hu)
    hk h

/-- Completeness half of the unaffected classification: when the call
returns and a test recorded a checksum for a re-parsed file that the file
no longer contains, the test's entry is gone from unaffected_nodes. -/
theorem unaffected_removes (nd : NodeData) (ch : List (String × Module))
    (t : String) (deps : Deps) (f : String) (cks : List Int) (m : Module)
    (c : Int) (un : NodeData) (uf : FileData)
    (hknd : (PyDict.keys nd).Nodup)
    (hvnd : ∀ e ∈ nd, (PyDict.keys e.2).Nodup)
    (ht : PyDict.lookup nd t = some deps)
    (hf : PyDict.lookup deps f = some cks)
    (hm : PyDict.lookup ch f = some m)
    (hc : c ∈ cks) (hcnot : c ∉ m.checksums)
    (hrun : unaffected nd ch = .ok (un, uf)) :
    PyDict.lookup un t = none := by
  have hl2 : lookup2 (flip_dictionary nd) f t = some cks := by
    rw [flip_dictionary_lookup2 nd f t hknd hvnd, ht]
    simpa using hf
  cases hfd : PyDict.lookup (flip_dictionary nd) f with
  | none =>
    unfold lookup2 at hl2
    rw [hfd] at hl2
    simp [PyDict.lookup] at hl2
  | some lst =>
    have hlst : PyDict.lookup lst t = some cks := by
      unfold lookup2 at hl2
      rw [hfd] at hl2
      simpa using hl2
    have hfmem : f ∈ (PyDict.keys (flip_dictionary nd)).filter
        (fun g => (PyDict.lookup ch g).isSome) := by
      refine List.mem_filter.mpr ⟨?hmem, ?hsome⟩
      · exact PyDict.lookup_isSome_mem_keys _ f (by rw [hfd]; rfl)
      · rw [hm]
        rfl
    obtain ⟨A, B, hdec⟩ := List.append_of_mem hfmem
    simp only [unaffected] at hrun
    rw [hdec] at hrun
    obtain ⟨s1, hA, hrest⟩ := foldlM_ok_append _ A _ _ _ hrun
    obtain ⟨s2, hfstep, hB⟩ := foldlM_ok_cons _ f B s1 _ hrest
    have habsent2 : PyDict.lookup s2.1 t = none := by
      unfold unaffectedFileStep at hfstep
      rw [hfd] at hfstep
      simp only [Option.getD_some] at hfstep
      obtain ⟨L1, L2, hldec⟩ := List.append_of_mem (PyDict.lookup_mem lst t cks hlst)
      rw [hldec] at hfstep
      obtain ⟨u1, hL1, hlrest⟩ := foldlM_ok_append _ L1 _ _ _ hfstep
      obtain ⟨u2, hustep, hL2⟩ := foldlM_ok_cons _ (t, cks) L2 u1 _ hlrest
      have hu2 : PyDict.lookup u2.1 t = none := by
        unfold unaffectedStep at hustep
        split at hustep
        · rename_i hm2
          rw [hm] at hm2
          cases hm2
        · rename_i m2 hm2
          rw [hm] at hm2
          cases hm2
          split at hustep
          · split at hustep
            · cases hustep
            · split at hustep
              · cases hustep
              · rename_i uf2 hd2 un2 hd1
                cases hustep
                rw [PyDict.delete_eq_some u1.1 t un2 hd1]
                exact PyDict.lookup_erase_self u1.1 t
          · rename_i hcond
            exfalso
            apply hcond
            simp only [List.any_eq_true]
            refine ⟨c, hc, ?hcontains⟩
            simp [hcnot]
      exact foldlM_ok_inv _ (fun u => PyDict.lookup u.1 t = none) L2 u2 s2
        (fun u p _ hu u' hstep =>
          unaffectedStep_absent ch f u p u' hstep t hu)
        hu2 hL2
    exact foldlM_ok_inv _ (fun u => PyDict.lookup u.1 t = none) B s2 (un, uf)
      (fun u g _ hu u' hstep =>
        unaffectedFileStep_absent ch (flip_dictionary nd) u g u' hstep t hu)
      habsent2 hB

end Testmon

namespace Testmon

theorem unaffectedFileStep_sub (ch : List (String × Module)) (fd : FileData)
    (st : NodeData × FileData) (file : String) (st' : NodeData × FileData)
    (h : unaffectedFileStep ch fd st file = .ok st') (k : String) (v : Deps)
    (hk : PyDict.lookup st'.1 k = some v) : PyDict.lookup st.1 k = some v := by
  unfold unaffectedFileStep at h
  exact foldlM_ok_inv _
    (fun u => PyDict.lookup u.1 k = some v → PyDict.lookup st.1 k = some v) _
    st st'
    (fun u p _ hu u' hstep hsome =>
      hu (unaffectedStep_sub ch file u p u' hstep k v hsome))
    (fun hsome => hsome) h hk

theorem unaffected_entries (nd : NodeData) (ch : List (String × Module))
    (un : NodeData) (uf : FileData) (hrun : unaffected nd ch = .ok (un, uf))
    (k : String) (v : Deps) (hk : PyDict.lookup un k = some v) :
    PyDict.lookup nd k = some v := by
  simp only [unaffected] at hrun
  exact foldlM_ok_inv _
    (fun u => PyDict.lookup u.1 k = some v → PyDict.lookup nd k = some v) _
    (nd, flip_dictionary nd) (un, uf)
    (fun u g _ hu u' hstep hsome =>
      hu (unaffectedFileStep_sub ch (flip_dictionary nd) u g u' hstep k v hsome))
    (fun hsome => hsome) hrun hk

/-- C4: the totality claim fails on the code.  On the snapshot where tests
t1 and t2 both depend on a.py and a.py lost their recorded checksum, the
second iteration of the inner loop executes del unaffected_files["a.py"]
after the first iteration already removed that key, so unaffected raises
KeyError instead of returning the remaining unaffected structures. -/
theorem unaffected_keyerror_two_dependents :
    unaffected [("t1", [("a.py", [1])]), ("t2", [("a.py", [1])])]
      [("a.py", ⟨[]⟩)] = .error "KeyError" := rfl

/-- C5: Containment soundness.  For every index snapshot (a Python dict:
keys unique at every level) and current-fingerprint map changed_files on
which the unaffected call returns, a test whose recorded checksum set is
contained in the current fingerprint of every re-parsed file it depends on
keeps its entry in the returned unaffected_tests. -/
theorem unaffected_containment_sound (node_data : NodeData)
    (changed_files : List (String × Module)) (t : String) (deps : Deps)
    (un : NodeData) (uf : FileData)
    (hknd : (PyDict.keys node_data).Nodup)
    (hvnd : ∀ e ∈ node_data, (PyDict.keys e.2).Nodup)
    (ht : PyDict.lookup node_data t = some deps)
    (hsub : ∀ f cks m, PyDict.lookup deps f = some cks →
        PyDict.lookup changed_files f = some m → ∀ c ∈ cks, c ∈ m.checksums)
    (hrun : unaffected node_data changed_files = .ok (un, uf)) :
    PyDict.lookup un t = some deps :=
  unaffected_sound node_data changed_files t deps un uf hknd hvnd ht hsub hrun

/-- C6: Monotonic growth is harmless.  For every index snapshot and two
current-fingerprint maps over the same set of re-parsed files where the
second enlarges every file's checksum set, a test classified unaffected
under the first map (both calls returning) is still classified unaffected
under the second. -/
theorem unaffected_monotonic_growth (node_data : NodeData)
    (ch ch' : List (String × Module)) (t : String) (deps : Deps)
    (un : NodeData) (uf : FileData) (un' : NodeData) (uf' : FileData)
    (hknd : (PyDict.keys node_data).Nodup)
    (hvnd : ∀ e ∈ node_data, (PyDict.keys e.2).Nodup)
    (hdom : ∀ f, (PyDict.lookup ch f).isSome ↔ (PyDict.lookup ch' f).isSome)
    (hgrow : ∀ f m m', PyDict.lookup ch f = some m →
        PyDict.lookup ch' f = some m' → ∀ c ∈ m.checksums, c ∈ m'.checksums)
    (hrun : unaffected node_data ch = .ok (un, uf))
    (hrun' : unaffected node_data ch' = .ok (un', uf'))
    (hin : PyDict.lookup un t = some deps) :
    PyDict.lookup un' t = some deps := by
  have ht : PyDict.lookup node_data t = some deps :=
    unaffected_entries node_data ch un uf hrun t deps hin
  have hsub : ∀ f cks m, PyDict.lookup deps f = some cks →
      PyDict.lookup ch f = some m → ∀ c ∈ cks, c ∈ m.checksums := by
    intro f cks m hf hm c hc
    by_contra hcnot
    have habs := unaffected_removes node_data ch t deps f cks m c un uf
      hknd hvnd ht hf hm hc hcnot hrun
    rw [hin] at habs
    cases habs
  have hsub' : ∀ f cks m', PyDict.lookup deps f = some cks →
      PyDict.lookup ch' f = some m' → ∀ c ∈ cks, c ∈ m'.checksums := by
    intro f cks m' hf hm' c hc
    have hsome : (PyDict.lookup ch f).isSome :=
      (hdom f).mpr (by rw [hm']; rfl)
    cases hmc : PyDict.lookup ch f with
    | none => rw [hmc] at hsome; cases hsome
    | some m => exact hgrow f m m' hmc hm' c (hsub f cks m hf hmc c hc)
  exact unaffected_sound node_data ch' t deps un' uf' hknd hvnd ht hsub' hrun'

end Testmon

namespace Testmon

theorem set_dependencies_fold_skips (fs : Fs) (cov : CovData)
    (l : List String) (acc : Deps × TDState) (h : ∀ g ∈ l, fs g = none) :
    l.foldlM (set_dependencies_step fs cov) acc = .ok acc := by
  induction l with
  | nil => rfl
  | cons g l ih =>
    rw [List.foldlM_cons]
    have hstep : set_dependencies_step fs cov acc g = .ok acc := by
      unfold set_dependencies_step
      rw [h g (List.mem_cons_self g l)]
      rfl
    rw [hstep]
    exact ih (fun g' hg' => h g' (List.mem_cons_of_mem g hg'))

/-- C7: Sentinel on empty coverage.  When no measured file of the coverage
data exists on disk, the assembled record is empty and set_dependencies
stages, under the nodeid, the single synthetic entry mapping the test's own
source file (the nodeid's path part joined to rootdir) to the checksum of
the unique block of that file containing line 1. -/
theorem set_dependencies_sentinel (st : TDState) (fs : Fs)
    (nodeid rootdir : String) (cov : CovData) (ff : FsFile) (b : Block)
    (hmf : ∀ g ∈ cov.measured_files, fs g = none)
    (hsf : PyDict.lookup st.changed_files (test_source_file rootdir nodeid) = none)
    (hfs : fs (test_source_file rootdir nodeid) = some ff)
    (hb : ff.blocks.filter (fun bl => decide (bl.start ≤ 1 ∧ 1 ≤ bl.stop)) = [b]) :
    ∃ st', set_dependencies st fs nodeid cov rootdir = .ok st' ∧
      PyDict.lookup st'.changed_node_data nodeid =
        some [(test_source_file rootdir nodeid, [b.checksum])] := by
  have hcc : checksum_coverage ff.blocks [1] = [b.checksum] := by
    unfold checksum_coverage
    have hfilter : ff.blocks.filter
        (fun bl => [1].any (fun l => decide (bl.start ≤ l ∧ l ≤ bl.stop))) =
        ff.blocks.filter (fun bl => decide (bl.start ≤ 1 ∧ 1 ≤ bl.stop)) := by
      apply List.filter_congr
      intro bl _
      simp
    rw [hfilter, hb]
    rfl
  have hfold := set_dependencies_fold_skips fs cov cov.measured_files
    (([] : Deps), st) hmf
  have hpf : parse_file st fs (test_source_file rootdir nodeid) none =
      .ok (⟨ff.blocks⟩, { st with
        changed_files := PyDict.insert st.changed_files
          (test_source_file rootdir nodeid) ⟨ff.blocks⟩,
        changed_mtimes := PyDict.insert st.changed_mtimes
          (test_source_file rootdir nodeid) (MVal.mt ff.mtime) }) := by
    unfold parse_file
    rw [hsf, hfs]
  refine ⟨{ st with
      changed_files := PyDict.insert st.changed_files
        (test_source_file rootdir nodeid) ⟨ff.blocks⟩,
      changed_mtimes := PyDict.insert st.changed_mtimes
        (test_source_file rootdir nodeid) (MVal.mt ff.mtime),
      changed_node_data := PyDict.insert st.changed_node_data nodeid
        (PyDict.insert ([] : Deps) (test_source_file rootdir nodeid)
          [b.checksum]) }, ?heq, ?hlook⟩
  case heq =>
    simp only [set_dependencies, hfold, List.isEmpty_nil, if_true, hpf, hcc]
  case hlook =>
    simp only []
    exact PyDict.lookup_insert_self _ _ _
end Testmon

namespace Testmon

theorem parse_file_fields (st : TDState) (fs : Fs) (file : String)
    (nm : Option Int) (m : Module) (st' : TDState)
    (h : parse_file st fs file nm = .ok (m, st')) :
    st'.node_data = st.node_data ∧ st'.mtimes = st.mtimes ∧
    st'.lastfailed = st.lastfailed ∧
    st'.changed_node_data = st.changed_node_data ∧
    (st'.changed_files = st.changed_files ∨
      ∃ f, fs file = some f ∧
        st'.changed_files =
          PyDict.insert st.changed_files file (⟨f.blocks⟩ : Module)) := by
  unfold parse_file at h
  split at h
  · cases h
    exact ⟨rfl, rfl, rfl, rfl, Or.inl rfl⟩
  · split at h
    · cases h
    · rename_i f hf
      cases h
      exact ⟨rfl, rfl, rfl, rfl, Or.inr ⟨f, hf, rfl⟩⟩

theorem read_fs_step_node_data (fs : Fs) (st : TDState) (p : String) :
    (read_fs_step fs st p).node_data = st.node_data := by
  unfold read_fs_step
  split
  · rfl
  · split
    · rfl
    · split
      · rename_i m2 st2 heq
        exact (parse_file_fields st fs p _ m2 st2 heq).1
      · rfl

theorem read_fs_loop_node_data (fs : Fs) (files : List String) (st : TDState) :
    (files.foldl (read_fs_step fs) st).node_data = st.node_data := by
  induction files generalizing st with
  | nil => rfl
  | cons p files ih =>
    rw [List.foldl_cons, ih (read_fs_step fs st p), read_fs_step_node_data]

theorem read_fs_step_changed_none (fs : Fs) (st : TDState) (p F : String)
    (hmiss : fs F = none) (h : PyDict.lookup st.changed_files F = none) :
    PyDict.lookup (read_fs_step fs st p).changed_files F = none := by
  unfold read_fs_step
  split
  · exact h
  · split
    · exact h
    · split
      · rename_i f hf _ m2 st2 heq
        rcases (parse_file_fields st fs p _ m2 st2 heq).2.2.2.2 with hsame |
          ⟨f2, hf2, hins⟩
        · rw [hsame]
          exact h
        · rw [hins]
          have hne : F ≠ p := by
            intro hc
            subst hc
            rw [hmiss] at hf2
            cases hf2
          rw [PyDict.lookup_insert_ne _ _ _ _ hne]
          exact h
      · exact h

theorem read_fs_step_unchanged (fs : Fs) (st : TDState) (p f : String)
    (ff : FsFile) (hf : fs f = some ff)
    (h1 : PyDict.lookup st.mtimes f = some (MVal.mt ff.mtime))
    (h2 : PyDict.lookup st.changed_files f = none) :
    PyDict.lookup (read_fs_step fs st p).mtimes f = some (MVal.mt ff.mtime) ∧
    PyDict.lookup (read_fs_step fs st p).changed_files f = none := by
  by_cases hp : p = f
  · subst hp
    unfold read_fs_step
    have hmatch : mtime_matches (PyDict.lookup st.mtimes p) ff.mtime = true := by
      rw [h1]
      simp [mtime_matches]
    split
    · rename_i hnone
      rw [hf] at hnone
      cases hnone
    · rename_i f hsome
      rw [hf] at hsome
      cases hsome
      rw [hmatch]
      simp only [if_true]
      exact ⟨h1, h2⟩
  · have hfp : f ≠ p := fun hc => hp hc.symm
    unfold read_fs_step
    split
    · exact ⟨by rw [PyDict.lookup_insert_ne _ _ _ _ hfp]; exact h1, h2⟩
    · split
      · exact ⟨h1, h2⟩
      · split
        · rename_i fp hfp2 _ m2 st2 heq
          obtain ⟨_, hmt, _, _, hcf⟩ := parse_file_fields st fs p _ m2 st2 heq
          refine ⟨by rw [hmt]; exact h1, ?hcf2⟩
          rcases hcf with hsame | ⟨f2, hf2, hins⟩
          · rw [hsame]
            exact h2
          · rw [hins, PyDict.lookup_insert_ne _ _ _ _ hfp]
            exact h2
        · exact ⟨by rw [PyDict.lookup_insert_ne _ _ _ _ hfp]; exact h1, h2⟩

theorem read_fs_step_mtimes_other (fs : Fs) (st : TDState) (p f : String)
    (hne : f ≠ p) :
    PyDict.lookup (read_fs_step fs st p).mtimes f =
      PyDict.lookup st.mtimes f := by
  unfold read_fs_step
  split
  · exact PyDict.lookup_insert_ne _ _ _ _ hne
  · split
    · rfl
    · split
      · rename_i fp hfp _ m2 st2 heq
        rw [(parse_file_fields st fs p _ m2 st2 heq).2.1]
      · exact PyDict.lookup_insert_ne _ _ _ _ hne

theorem read_fs_step_missing_self (fs : Fs) (st : TDState) (F : String)
    (hmiss : fs F = none) :
    PyDict.lookup (read_fs_step fs st F).mtimes F =
      some MVal.missingSentinel := by
  unfold read_fs_step
  rw [hmiss]
  exact PyDict.lookup_insert_self _ _ _

theorem read_fs_ok (st : TDState) (fs : Fs) (res : ReadFsResult)
    (h : read_fs st fs = .ok res) :
    res.state =
      (PyDict.keys (flip_dictionary st.node_data)).foldl (read_fs_step fs) st ∧
    unaffected res.state.node_data res.state.changed_files =
      .ok (res.unaffected_nodeids, res.unaffected_files) := by
  simp only [read_fs] at h
  split at h
  · rename_i un uf hun
    cases h
    exact ⟨rfl, hun⟩
  · cases h

end Testmon

namespace Testmon

/-- C8: Mtime fast path.  On a freshly constructed TestmonData (empty
staging dictionaries) whose read_fs run returns, a file whose on-disk
modification time equals its stored mtimes entry is not re-parsed (it never
enters changed_files), and a test all of whose dependent files have such
unchanged mtimes keeps its entry in unaffected_nodeids. -/
theorem read_fs_mtime_fast_path (st0 : TDState) (fs : Fs) (res : ReadFsResult)
    (hfresh : st0.changed_files = [])
    (hknd : (PyDict.keys st0.node_data).Nodup)
    (hvnd : ∀ e ∈ st0.node_data, (PyDict.keys e.2).Nodup)
    (hrun : read_fs st0 fs = .ok res) :
    (∀ f ff, fs f = some ff →
        PyDict.lookup st0.mtimes f = some (MVal.mt ff.mtime) →
        PyDict.lookup res.state.changed_files f = none) ∧
    (∀ t deps, PyDict.lookup st0.node_data t = some deps →
        (∀ f cks, PyDict.lookup deps f = some cks →
          ∃ ff, fs f = some ff ∧
            PyDict.lookup st0.mtimes f = some (MVal.mt ff.mtime)) →
        PyDict.lookup res.unaffected_nodeids t = some deps) := by
  obtain ⟨hstate, hun⟩ := read_fs_ok st0 fs res hrun
  have hzero : ∀ f, PyDict.lookup st0.changed_files f = none := by
    intro f
    rw [hfresh]
    rfl
  have hkeep : ∀ f ff, fs f = some ff →
      PyDict.lookup st0.mtimes f = some (MVal.mt ff.mtime) →
      PyDict.lookup res.state.mtimes f = some (MVal.mt ff.mtime) ∧
      PyDict.lookup res.state.changed_files f = none := by
    intro f ff hf h1
    rw [hstate]
    exact foldl_inv (read_fs_step fs)
      (fun s => PyDict.lookup s.mtimes f = some (MVal.mt ff.mtime) ∧
        PyDict.lookup s.changed_files f = none)
      (PyDict.keys (flip_dictionary st0.node_data)) st0
      (fun s p _ hs => read_fs_step_unchanged fs s p f ff hf hs.1 hs.2)
      ⟨h1, hzero f⟩
  have hnd : res.state.node_data = st0.node_data := by
    rw [hstate]
    exact read_fs_loop_node_data fs _ st0
  refine ⟨fun f ff hf h1 => (hkeep f ff hf h1).2, ?hsecond⟩
  intro t deps ht hdeps
  rw [hnd] at hun
  refine unaffected_sound st0.node_data res.state.changed_files t deps
    res.unaffected_nodeids res.unaffected_files hknd hvnd ht ?hsub hun
  intro f cks m hfc hm
  obtain ⟨ff, hf, h1⟩ := hdeps f cks hfc
  rw [(hkeep f ff hf h1).2] at hm
  cases hm

/-- C2 as amended: a file missing on disk when read_fs runs is not
re-parsed and never enters changed_files; its mtimes entry becomes the [-2]
sentinel; and a test all of whose dependent files are missing keeps its
entry in unaffected_nodeids (its dependents are not invalidated). -/
theorem read_fs_missing_file (st0 : TDState) (fs : Fs) (res : ReadFsResult)
    (F : String) (hfresh : st0.changed_files = [])
    (hknd : (PyDict.keys st0.node_data).Nodup)
    (hvnd : ∀ e ∈ st0.node_data, (PyDict.keys e.2).Nodup)
    (hmiss : fs F = none) (hrun : read_fs st0 fs = .ok res) :
    PyDict.lookup res.state.changed_files F = none ∧
    (F ∈ PyDict.keys (flip_dictionary st0.node_data) →
        PyDict.lookup res.state.mtimes F = some MVal.missingSentinel) ∧
    (∀ t deps, PyDict.lookup st0.node_data t = some deps →
        (∀ f cks, PyDict.lookup deps f = some cks → fs f = none) →
        PyDict.lookup res.unaffected_nodeids t = some deps) := by
  obtain ⟨hstate, hun⟩ := read_fs_ok st0 fs res hrun
  have hzero : ∀ f, PyDict.lookup st0.changed_files f = none := by
    intro f
    rw [hfresh]
    rfl
  have hnone : ∀ G, fs G = none →
      PyDict.lookup res.state.changed_files G = none := by
    intro G hG
    rw [hstate]
    exact foldl_inv (read_fs_step fs)
      (fun s => PyDict.lookup s.changed_files G = none)
      (PyDict.keys (flip_dictionary st0.node_data)) st0
      (fun s p _ hs => read_fs_step_changed_none fs s p G hG hs)
      (hzero G)
  have hnd : res.state.node_data = st0.node_data := by
    rw [hstate]
    exact read_fs_loop_node_data fs _ st0
  refine ⟨hnone F hmiss, ?hsentinel, ?hsurvive⟩
  case hsentinel =>
    intro hFmem
    obtain ⟨A, B, hdec⟩ := List.append_of_mem hFmem
    have hnodup : (PyDict.keys (flip_dictionary st0.node_data)).Nodup :=
      flip_keys_nodup st0.node_data
    rw [hdec] at hnodup
    have hFnotB : F ∉ B :=
      (List.nodup_cons.mp hnodup.of_append_right).1
    rw [hstate, hdec, List.foldl_append, List.foldl_cons]
    refine foldl_inv (read_fs_step fs)
      (fun s => PyDict.lookup s.mtimes F = some MVal.missingSentinel) B _
      (fun s p hp hs => ?hother) ?hself
    case hself =>
      exact read_fs_step_missing_self fs _ F hmiss
    case hother =>
      show PyDict.lookup (read_fs_step fs s p).mtimes F = some MVal.missingSentinel
      rw [read_fs_step_mtimes_other fs s p F (fun hc => hFnotB (hc ▸ hp))]
      exact hs
  case hsurvive =>
    intro t deps ht hdeps
    rw [hnd] at hun
    refine unaffected_sound st0.node_data res.state.changed_files t deps
      res.unaffected_nodeids res.unaffected_files hknd hvnd ht ?hsub hun
    intro f cks m hfc hm
    rw [hnone f (hdeps f cks hfc)] at hm
    cases hm

end Testmon

namespace Testmon

/-- C2 counterexample: on the concrete snapshot whose only test depends on
the missing file a.py, read_fs succeeds and the test is still in
unaffected_nodeids, contradicting the claim that dependents of a missing
file are classified affected. -/
theorem read_fs_missing_file_counterexample :
    read_fs c2_state c2_fs = .ok c2_result ∧
    PyDict.lookup c2_result.unaffected_nodeids "t::x" = some [("a.py", [7])] :=
  ⟨rfl, rfl⟩

theorem read_fs_missing_file_witness :
    PyDict.lookup c2_result.state.changed_files "a.py" = none ∧
    PyDict.lookup c2_result.state.mtimes "a.py" = some MVal.missingSentinel ∧
    PyDict.lookup c2_result.unaffected_nodeids "t::x" = some [("a.py", [7])] := by
  have h := read_fs_missing_file c2_state c2_fs c2_result "a.py" rfl
    (by decide) (by decide) rfl rfl
  exact ⟨h.1, h.2.1 (by decide),
    h.2.2 "t::x" [("a.py", [7])] rfl (fun f cks _ => rfl)⟩

/-- C3 counterexample: with an empty live inventory, the dead test record
and the dead lastfailed entry both survive collect_garbage, contradicting
the claim that records outside allnodeids are removed. -/
theorem collect_garbage_keeps_dead :
    PyDict.lookup (collect_garbage c3_st []).node_data "dead::t" =
      some [("x.py", [1])] ∧
    (collect_garbage c3_st []).lastfailed = ["dead::t"] :=
  ⟨rfl, rfl⟩

/-- C3 as amended: collect_garbage is disabled; its body returns before the
removal loops, so for every state and live inventory it leaves node_data,
lastfailed and every other attribute exactly unchanged. -/
theorem collect_garbage_noop (st : TDState) (allnodeids : List String) :
    collect_garbage st allnodeids = st :=
  rfl

theorem unaffected_containment_sound_witness :
    PyDict.lookup c5_nd "t::a" = some [("a.py", [7])] := by
  refine unaffected_containment_sound c5_nd c5_ch "t::a" [("a.py", [7])]
    c5_nd c5_uf (by decide) (by decide) rfl ?hsub rfl
  intro f cks m hf hm c hc
  have hmem := PyDict.lookup_mem _ _ _ hf
  rw [List.mem_singleton, Prod.mk.injEq] at hmem
  obtain ⟨hf2, hc2⟩ := hmem
  subst hf2
  subst hc2
  rw [show PyDict.lookup c5_ch "a.py" =
    some (⟨[⟨1, 3, 7⟩, ⟨4, 6, 8⟩]⟩ : Module) from rfl] at hm
  rw [Option.some.injEq] at hm
  subst hm
  rw [List.mem_singleton] at hc
  subst hc
  decide

theorem unaffected_monotonic_growth_witness :
    PyDict.lookup c6_nd "t6::b" = some [("b.py", [1])] := by
  refine unaffected_monotonic_growth c6_nd c6_ch c6_ch2 "t6::b"
    [("b.py", [1])] c6_nd c6_uf c6_nd c6_uf (by decide) (by decide)
    ?hdom ?hgrow rfl rfl rfl
  case hdom =>
    intro f
    by_cases hf : ("b.py" : String) = f
    · subst hf
      rfl
    · simp [c6_ch, c6_ch2, PyDict.lookup, hf]
  case hgrow =>
    intro f m m' hm hm' c hc
    by_cases hf : ("b.py" : String) = f
    · subst hf
      rw [show PyDict.lookup c6_ch "b.py" =
        some (⟨[⟨1, 2, 1⟩]⟩ : Module) from rfl, Option.some.injEq] at hm
      rw [show PyDict.lookup c6_ch2 "b.py" =
        some (⟨[⟨1, 2, 1⟩, ⟨3, 4, 2⟩]⟩ : Module) from rfl,
        Option.some.injEq] at hm'
      subst hm
      subst hm'
      rw [show (⟨[⟨1, 2, 1⟩]⟩ : Module).checksums = [1] from rfl,
        List.mem_singleton] at hc
      subst hc
      decide
    · rw [show PyDict.lookup c6_ch f = none from by
        simp [c6_ch, PyDict.lookup, hf]] at hm
      cases hm

theorem set_dependencies_sentinel_witness :
    ∃ st', set_dependencies c7_st c7_fs "tests/test_x.py::test_a" c7_cov
        "proj" = .ok st' ∧
      PyDict.lookup st'.changed_node_data "tests/test_x.py::test_a" =
        some [(test_source_file "proj" "tests/test_x.py::test_a", [99])] :=
  set_dependencies_sentinel c7_st c7_fs "tests/test_x.py::test_a" "proj"
    c7_cov ⟨10, [⟨1, 5, 99⟩]⟩ ⟨1, 5, 99⟩ (by decide) rfl rfl (by decide)

theorem read_fs_mtime_fast_path_witness :
    PyDict.lookup c8_res.state.changed_files "m.py" = none ∧
    PyDict.lookup c8_res.unaffected_nodeids "t8::y" = some [("m.py", [3])] := by
  have h := read_fs_mtime_fast_path c8_st c8_fs c8_res rfl (by decide)
    (by decide) rfl
  refine ⟨h.1 "m.py" ⟨5, [⟨1, 2, 3⟩]⟩ rfl rfl,
    h.2 "t8::y" [("m.py", [3])] rfl ?hdeps⟩
  intro f cks hf
  have hmem := PyDict.lookup_mem _ _ _ hf
  rw [List.mem_singleton, Prod.mk.injEq] at hmem
  obtain ⟨hf2, _⟩ := hmem
  subst hf2
  exact ⟨⟨5, [⟨1, 2, 3⟩]⟩, rfl, rfl⟩

/-- C9: Guaranteed teardown in tracking.  Whenever the finally clause's
stop_and_save succeeds on the coverage the run produced, track_dependencies
re-raises the callable's exception unchanged when it raised one, and
returns the state stop_and_save staged when it did not: the record is
staged on every exit path. -/
theorem track_dependencies_teardown (run : RunOutcome) (st : TDState)
    (fs : Fs) (rootdir nodeid : String) (st' : TDState)
    (hsave : stop_and_save st fs run.cov rootdir nodeid = .ok st') :
    (∀ e, run.exc = some e →
        track_dependencies run st fs rootdir nodeid = .error e) ∧
    (run.exc = none → track_dependencies run st fs rootdir nodeid = .ok st') := by
  unfold track_dependencies
  rw [hsave]
  constructor
  · intro e he
    rw [he]
  · intro he
    rw [he]

theorem track_dependencies_teardown_witness :
    track_dependencies ⟨some "boom", c9_cov⟩ c9_st c9_fs "r" "t.py::tc" =
      .error "boom" := by
  have h := track_dependencies_teardown ⟨some "boom", c9_cov⟩ c9_st c9_fs
    "r" "t.py::tc" c9_st2 rfl
  exact h.1 "boom" rfl

/-- C10: eval_variant never raises.  A missing (None) or empty expression
resolves to the empty string; a non-empty expression whose evaluation
raises an Exception resolves to the repr of that exception; and in every
case the result is one of the empty string, str of the computed value, or
repr of the caught exception. -/
theorem eval_variant_total (run_variant : Option String)
    (outcome : Except PyExc PyVal) :
    (run_variant = none ∨ run_variant = some "" →
        eval_variant run_variant outcome = "") ∧
    (∀ rv e, run_variant = some rv → rv ≠ "" → outcome = .error e →
        eval_variant run_variant outcome = e.repr) ∧
    (eval_variant run_variant outcome = "" ∨
      (∃ v, outcome = .ok v ∧ eval_variant run_variant outcome = v.str) ∨
      (∃ e, outcome = .error e ∧
        eval_variant run_variant outcome = e.repr)) := by
  refine ⟨?hempty, ?hexc, ?htotal⟩
  case hempty =>
    intro h
    rcases h with h | h
    · subst h
      rfl
    · subst h
      rfl
  case hexc =>
    intro rv e hr hne he
    subst hr
    subst he
    simp [eval_variant, hne]
  case htotal =>
    cases run_variant with
    | none => exact Or.inl rfl
    | some rv =>
      by_cases hrv : rv = ""
      · subst hrv
        exact Or.inl rfl
      · cases outcome with
        | ok v =>
          refine Or.inr (Or.inl ⟨v, rfl, ?hstr⟩)
          simp [eval_variant, hrv]
        | error e =>
          refine Or.inr (Or.inr ⟨e, rfl, ?hrepr⟩)
          simp [eval_variant, hrv]

theorem eval_variant_total_witness :
    eval_variant (some "os.environ") (.error ⟨"KeyError(1)"⟩) =
      "KeyError(1)" :=
  (eval_variant_total (some "os.environ") (.error ⟨"KeyError(1)"⟩)).2.1
    "os.environ" ⟨"KeyError(1)"⟩ rfl (by decide) rfl

end Testmon
